import Mathlib

/-
Verification of the NetJobs coordinator/agent pair (src/NetJobs.py,
src/NetJobsAgent.py) against its natural-language specification.

Python strings are modelled as lists of characters (PyStr), Python dicts as
insertion-ordered association lists, fallible Python operations (indexing,
dict lookup, the undefined-name fault in NetJobsAgent.send_result) as
Except-valued functions.
-/

deriving instance DecidableEq for Except

namespace NetJobsModel

/-- Python str, modelled as a list of characters. -/
abbrev PyStr := List Char

/-- Characters of a Lean string literal, used to write PyStr constants. -/
def pyStr (s : String) : PyStr := s.data

/-- Python exceptions that the modelled code can raise. -/
inductive PyErr where
  | keyError
  | indexError
  | nameError
  | valueError
deriving DecidableEq, Repr

/-- SOCKET_DELIMITER (both files): a single TAB character. -/
def tab : Char := '\t'

def nl : Char := '\n'

/-- BUFFER_SIZE = 4096 (both files). -/
def BUFFER_SIZE : Nat := 4096

/-- TIMEOUT_NONE = 0 (both files): the sentinel integer for "no timeout". -/
def TIMEOUT_NONE : Int := 0

/-- MIN_HOSTS_ALL = -1 (NetJobs.py line 47). -/
def MIN_HOSTS_ALL : Int := -1

def READY_STRING : PyStr := pyStr "// READY //\n"

def START_STRING : PyStr := pyStr "// START //\n"

def KILL_STRING : PyStr := pyStr "// KILL //\n"

def DONE_STRING : PyStr := pyStr "// DONE //\n"

def SUCCESS_STATUS : PyStr := pyStr "SUCCESS"

def ERROR_STATUS : PyStr := pyStr "ERROR"

def TIMEOUT_STATUS : PyStr := pyStr "TIMEOUT"

def KILLED_STATUS : PyStr := pyStr "KILLED"

/-- Python str.split with an explicit one-character separator: always returns
at least one (possibly empty) piece, one extra piece per separator occurrence. -/
def splitChar (sep : Char) : List Char → List PyStr
  | [] => [[]]
  | c :: cs =>
    if c = sep then [] :: splitChar sep cs
    else
      match splitChar sep cs with
      | [] => [[c]]
      | t :: ts => (c :: t) :: ts

/-- Python list indexing `l[i]`: IndexError when out of range. -/
def listGetE (l : List α) (i : Nat) : Except PyErr α :=
  match l.get? i with
  | some a => Except.ok a
  | none => Except.error PyErr.indexError

/-- Python list item assignment `l[i] = a`: IndexError when out of range. -/
def listSetE (l : List α) (i : Nat) (a : α) : Except PyErr (List α) :=
  if i < l.length then Except.ok (l.set i a) else Except.error PyErr.indexError

/-- Python dict lookup returning an Option (insertion-ordered assoc list). -/
def dictGet? (d : List (PyStr × α)) (k : PyStr) : Option α :=
  match d with
  | [] => none
  | (k', v) :: rest => if k' = k then some v else dictGet? rest k

/-- Python dict subscript `d[k]`: KeyError when the key is absent. -/
def dictGetE (d : List (PyStr × α)) (k : PyStr) : Except PyErr α :=
  match dictGet? d k with
  | some v => Except.ok v
  | none => Except.error PyErr.keyError

/-- Python dict item assignment `d[k] = v`: update in place, or append a new
key in insertion order. -/
def dictSet (d : List (PyStr × α)) (k : PyStr) (v : α) : List (PyStr × α) :=
  match d with
  | [] => [(k, v)]
  | (k', v') :: rest => if k' = k then (k, v) :: rest else (k', v') :: dictSet rest k v

-- ######################################################################## --
-- Coordinator side (src/NetJobs.py).                                       --
-- ######################################################################## --

/-- The abort-policy state of NetJobs: the instance flag `testAborted`
(NetJobs.py line 80) together with the test's `timeoutsRemaining` counter. -/
structure AbortState where
  testAborted : Bool
  timeoutsRemaining : Option Int
deriving DecidableEq, Repr

/-- TestConfig.__init__ lines 491-494: `timeoutsRemaining` is None when
minHosts == 0, and minHosts itself otherwise (including MIN_HOSTS_ALL). -/
def init_abort_state (minHosts : Int) : AbortState :=
  { testAborted := false
    timeoutsRemaining := if minHosts = 0 then none else some minHosts }

/-- NetJobs.handle_timeout (lines 420-436): called once per failing target
(connection timeout, listener timeout, or listener error). -/
def handle_timeout (minHosts : Int) (s : AbortState) : AbortState :=
  if s.testAborted = false then
    if minHosts = MIN_HOSTS_ALL then
      { s with testAborted := true }
    else
      match s.timeoutsRemaining with
      | none => s
      | some r =>
        if r < 1 then { s with testAborted := true }
        else { s with timeoutsRemaining := some (r - 1) }
  else s

/-- M successive target failures, each routed through handle_timeout. -/
def apply_failures (minHosts : Int) : Nat → AbortState → AbortState
  | 0, s => s
  | n + 1, s => apply_failures minHosts n (handle_timeout minHosts s)

/-- One target's per-command slot in TestConfig.results: value is Python None
until a record is stored, then a (status, output) pair of strings. -/
abbrev InnerMap := List (PyStr × Option (PyStr × PyStr))

/-- TestConfig.results: target name to per-command result dict. -/
abbrev ResultsMap := List (PyStr × InnerMap)

instance innerMapDecEq : DecidableEq InnerMap := inferInstance

instance resultsMapDecEq : DecidableEq ResultsMap := inferInstance

/-- TestConfig.__init__ lines 498-514, body of `for target in specs.keys()`:
walks this target's command list, initializing each results slot to None and
folding the running listener timeout; a Python-None timeout value sets the
listener timeout to None and breaks out of the loop (the parser only ever
stores integers, with 0 as the NONE sentinel, so that branch is dead in the
shipped system).  `timeouts[target][command]` is a dict subscript and can
raise KeyError. -/
def target_setup (tmap : List (PyStr × Option Int)) :
    List PyStr → InnerMap → Int → Except PyErr (InnerMap × Option Int)
  | [], res, timeout => Except.ok (res, some timeout)
  | cmd :: rest, res, timeout =>
    match dictGetE tmap cmd with
    | Except.error e => Except.error e
    | Except.ok v =>
      match v with
      | none => Except.ok (dictSet res cmd none, none)
      | some t =>
        target_setup tmap rest (dictSet res cmd none)
          (if t > timeout then t else timeout)

/-- ListenThread.process_result_string (lines 579-597): split the received
buffer on TAB, run the (faulty) padding loop when fewer than four tokens are
present, then store (status, output) under the record's own target and
command fields.  `tokens[4-count] = ''` is a Python list item assignment and
`results[target]` a dict subscript; both can raise. -/
def process_result_string (r : ResultsMap) (message : PyStr) :
    Except PyErr ResultsMap := do
  let tokens := splitChar tab message
  let count := tokens.length
  let tokens ←
    if count < 4 then
      (List.range (4 - count)).foldlM
        (fun ts _ => listSetE ts (4 - count) ([] : PyStr)) tokens
    else pure tokens
  let target ← listGetE tokens 0
  let command ← listGetE tokens 1
  let status ← listGetE tokens 2
  let output ← listGetE tokens 3
  let inner ← dictGetE r target
  pure (dictSet r target (dictSet inner command (some (status, output))))

/-- ListenThread.print_signoff (lines 602-608): for every command in this
target's plan whose result slot is still None, store (KILLED, "").  The two
dict subscripts can raise KeyError. -/
def print_signoff (target : PyStr) :
    List PyStr → ResultsMap → Except PyErr ResultsMap
  | [], r => Except.ok r
  | cmd :: rest, r =>
    match dictGetE r target with
    | Except.error e => Except.error e
    | Except.ok inner =>
      match dictGetE inner cmd with
      | Except.error e => Except.error e
      | Except.ok v =>
        match v with
        | none =>
          print_signoff target rest
            (dictSet r target (dictSet inner cmd (some (KILLED_STATUS, []))))
        | some _ => print_signoff target rest r

/-- ListenThread.run's receive loop (lines 541-562) over the sequence of
received buffers: stop cleanly on DONE, process anything else as a result
record, and on any exception invoke handle_timeout (flag true) and stop.
The wall-clock deadline is modelled by the received stream simply ending. -/
def listener_loop : ResultsMap → List PyStr → ResultsMap × Bool
  | r, [] => (r, false)
  | r, m :: ms =>
    if m = DONE_STRING then (r, false)
    else
      match process_result_string r m with
      | Except.ok r2 => listener_loop r2 ms
      | Except.error _ => (r, true)

/-- ListenThread.run in full: the receive loop followed by print_signoff,
which runs on every exit path (line 564).  The Bool records whether
handle_timeout was invoked. -/
def listener_exit (target : PyStr) (specs_t : List PyStr) (r : ResultsMap)
    (msgs : List PyStr) : Except PyErr (ResultsMap × Bool) :=
  match print_signoff target specs_t (listener_loop r msgs).1 with
  | Except.error e => Except.error e
  | Except.ok f => Except.ok (f, (listener_loop r msgs).2)

-- ######################################################################## --
-- Coordinator prepare phase (NetJobs.prep_agents, lines 302-359).          --
-- ######################################################################## --

/-- What the environment does at one blocking socket operation of
prep_agents: deliver bytes, raise socket.timeout, or raise socket.error. -/
inductive NetEvent where
  | ok (resp : PyStr)
  | evTimeout
  | evError
deriving DecidableEq, Repr

/-- How prep_agents disposes of one target: echoes all verified and the
socket registered; sys.exit of the whole coordinator; or handle_timeout. -/
inductive PrepOutcome where
  | prepared
  | fatal_exit
  | handled_timeout
deriving DecidableEq, Repr

/-- str(timeout) as sent on the wire by prep_agents. -/
def int_to_pystr (t : Int) : PyStr := (toString t).data

/-- The configure messages prep_agents sends for one target, in order:
the name echo test (line 320), then command and timeout for each job
(lines 330-344), then READY (line 347). -/
def prep_msgs (target : PyStr) (jobs : List (PyStr × Int)) : List PyStr :=
  (pyStr "name" ++ tab :: target ++ [nl]) ::
    ((jobs.map (fun j =>
        [pyStr "command" ++ tab :: j.1 ++ [nl],
         pyStr "timeout" ++ tab :: int_to_pystr j.2 ++ [nl]])).flatten
      ++ [READY_STRING])

/-- The echo-verification loop of prep_agents: for each pending message the
environment yields one event.  A mismatched echo or a socket.error hits a
sys.exit branch (lines 324, 337, 344, 351, 358) and kills the whole
coordinator; only socket.timeout reaches handle_timeout (line 356).  An
exhausted event stream stands for a peer that never answers, which the
60-second socket timeout turns into socket.timeout. -/
def prep_echoes : List PyStr → List NetEvent → PrepOutcome
  | [], _ => PrepOutcome.prepared
  | _ :: _, [] => PrepOutcome.handled_timeout
  | m :: ms, e :: es =>
    match e with
    | NetEvent.ok resp =>
      if resp = m then prep_echoes ms es else PrepOutcome.fatal_exit
    | NetEvent.evTimeout => PrepOutcome.handled_timeout
    | NetEvent.evError => PrepOutcome.fatal_exit

/-- prep_agents for one target: socket.create_connection (line 318) first,
then the echo loop. -/
def prep_one_target (connectEv : NetEvent) (msgs : List PyStr)
    (events : List NetEvent) : PrepOutcome :=
  match connectEv with
  | NetEvent.evTimeout => PrepOutcome.handled_timeout
  | NetEvent.evError => PrepOutcome.fatal_exit
  | NetEvent.ok _ => prep_echoes msgs events

-- ######################################################################## --
-- Agent side (src/NetJobsAgent.py).                                        --
-- ######################################################################## --

/-- Digits-only string to Nat, none on any non-digit or on empty input. -/
def digitsToNat? (cs : List Char) : Option Nat :=
  match cs with
  | [] => none
  | _ =>
    cs.foldl
      (fun acc c =>
        match acc with
        | none => none
        | some n => if c.isDigit then some (n * 10 + (c.toNat - 48)) else none)
      (some 0)

/-- Python int(str): optional sign followed by digits; ValueError otherwise
(modelled as none). -/
def pyInt? (s : PyStr) : Option Int :=
  match s with
  | '-' :: rest => (digitsToNat? rest).map (fun n => -(n : Int))
  | '+' :: rest => (digitsToNat? rest).map (fun n => (n : Int))
  | _ => (digitsToNat? s).map (fun n => (n : Int))

/-- The agent's per-connection configuration state: the globals name, ready
and sosTimeout together with get_specs's commands and timeouts lists.
A timeout entry is None when the wire value was 0 (TIMEOUT_NONE). -/
structure AgentState where
  name : PyStr
  commands : List PyStr
  timeouts : List (Option Int)
  sosTimeout : Int
  ready : Bool
deriving DecidableEq, Repr

/-- State at the top of get_specs: name '' (main, line 167), empty lists,
sosTimeout = TIMEOUT_NONE (line 55), ready False (line 170). -/
def init_agent_state : AgentState :=
  { name := [], commands := [], timeouts := [], sosTimeout := 0, ready := false }

/-- get_specs's `timeout` branch (NetJobsAgent.py lines 88-99), after the
int parse succeeded: 0 registers None; a nonzero value is appended and
raises sosTimeout when it exceeds the running maximum. -/
def register_timeout (st : AgentState) (t : Int) : AgentState :=
  if t = 0 then { st with timeouts := st.timeouts ++ [none] }
  else
    { st with
        timeouts := st.timeouts ++ [some t]
        sosTimeout := if t > st.sosTimeout then t else st.sosTimeout }

/-- get_specs (lines 50-109) over the decoded configure messages: echoes are
abstracted away (the agent echoes every buffer verbatim at line 65).  READY
sets ready and ends the loop; otherwise the message is stripped of newlines
and split on TAB; fewer than two tokens, an unparsable timeout, or an
unrecognized key each break the loop with the state as is. -/
def get_specs : AgentState → List PyStr → AgentState
  | st, [] => st
  | st, m :: ms =>
    if m = READY_STRING then { st with ready := true }
    else
      let tokens := splitChar tab (m.filter (fun c => c ≠ nl))
      if tokens.length < 2 then st
      else
        let key := tokens.getD 0 []
        let val := tokens.getD 1 []
        if key = pyStr "name" then get_specs { st with name := val } ms
        else if key = pyStr "command" then
          get_specs { st with commands := st.commands ++ [val] } ms
        else if key = pyStr "timeout" then
          match pyInt? val with
          | none => st
          | some t => get_specs (register_timeout st t) ms
        else st

/-- main's wait-for-start loop (lines 192-205): an empty buffer loops, any
nonempty buffer ends the wait, and the run starts only on START. -/
def await_start : List PyStr → Bool
  | [] => false
  | m :: ms => if m = [] then await_start ms else decide (m = START_STRING)

/-- Outcome of one accepted agent connection. -/
structure SessionOutcome where
  specState : AgentState
  started : Bool
  sentDone : Bool
deriving DecidableEq, Repr

/-- One iteration of the agent's accept loop (main, lines 163-225): run
get_specs, wait for START only if configuration reached ready, and then
always attempt to send DONE (line 213 executes unconditionally after the
subthread joins, however configuration ended) before closing the socket. -/
def agent_session (configMsgs postMsgs : List PyStr) : SessionOutcome :=
  let st := get_specs init_agent_state configMsgs
  { specState := st
    started := if st.ready then await_start postMsgs else false
    sentDone := true }

/-- start_run (lines 122-142): the spawn loop runs over
range(0, min(len(commands), len(timeouts))), starting one ProcThread per
(commands[i], timeouts[i]) pair; surplus entries of the longer list are
never reached. -/
def start_run : List PyStr → List (Option Int) → List (PyStr × Option Int)
  | c :: cs, t :: ts => (c, t) :: start_run cs ts
  | _, _ => []

/-- The commands for which a result record is sent during a run: each
spawned ProcThread sends exactly one record for its own command
(ProcThread.run ends in send_result, line 309) and nothing else sends
records. -/
def run_record_commands (cs : List PyStr) (ts : List (Option Int)) :
    List PyStr := (start_run cs ts).map Prod.fst

/-- A four-field result record `name TAB command TAB status TAB field`. -/
def record_line (nm cmd st fld : PyStr) : PyStr :=
  nm ++ [tab] ++ cmd ++ [tab] ++ st ++ [tab] ++ fld

/-- The status ProcThread.send_result chooses for a subprocess that ran to
completion (line 316): ERROR when returncode > 0 or stderr is nonempty,
SUCCESS otherwise. -/
def send_status (returncode : Int) (errs : PyStr) : PyStr :=
  if returncode > 0 ∨ errs ≠ [] then ERROR_STATUS else SUCCESS_STATUS

/-- The record ProcThread.send_result composes when self.result is still
'NONE' (lines 314-321): the error branch carries stderr, the success branch
carries stdout. -/
def compose_result (nm cmd : PyStr) (returncode : Int) (out errs : PyStr) :
    PyStr :=
  record_line nm cmd (send_status returncode errs)
    (if returncode > 0 ∨ errs ≠ [] then errs else out)

/-- The record ProcThread.stop_and_kill_subproc leaves in self.result
(lines 346-347): name TAB command TAB reason, where the callers pass
reason = TIMEOUT·TAB, KILLED·TAB, or ERROR·TAB·message. -/
def stop_result (nm cmd reason : PyStr) : PyStr := nm ++ [tab] ++ cmd ++ [tab] ++ reason

/-- ProcThread.send_result's transmission step (lines 323-336): when the
composed record exceeds BUFFER_SIZE the truncation line executes
`self.result = resultString[:BUFFER_SIZE-1]`, but `resultString` is an
undefined name, so that path raises NameError and nothing is sent;
otherwise the record goes out as is. -/
def send_result (nm cmd : PyStr) (priorResult : Option PyStr)
    (returncode : Int) (out errs : PyStr) : Except PyErr PyStr :=
  let result :=
    match priorResult with
    | some r => r
    | none => compose_result nm cmd returncode out errs
  if result.length > BUFFER_SIZE then Except.error PyErr.nameError
  else Except.ok result

-- ######################################################################## --
-- Predicates used to state the claims.                                     --
-- ######################################################################## --

/-- The status vocabulary of the protocol. -/
def validStatus (st : PyStr) : Prop :=
  st = SUCCESS_STATUS ∨ st = ERROR_STATUS ∨ st = TIMEOUT_STATUS ∨
    st = KILLED_STATUS

instance (st : PyStr) : Decidable (validStatus st) := by
  unfold validStatus
  infer_instance

/-- A buffer is one the agent can have produced as a result record: four or
more TAB-separated fields whose first and second fields (the agent's name
and the command) are TAB-free and whose third field is one of the four
protocol statuses.  send_result and stop_and_kill_subproc only build such
records (see compose_result_produced and stop_result_produced below). -/
def AgentProduced (m : PyStr) : Prop :=
  ∃ nm cmd st fld, tab ∉ nm ∧ tab ∉ cmd ∧ validStatus st ∧
    m = record_line nm cmd st fld

/-- One target's slots are all present, and every slot already holding a
record holds a valid status: the induction invariant for the listener. -/
def InnerOk (specs_t : List PyStr) (inner : InnerMap) : Prop :=
  ∀ cmd ∈ specs_t, ∃ v, dictGet? inner cmd = some v ∧
    ∀ st out, v = some (st, out) → validStatus st

-- ######################################################################## --
-- Helper lemmas.                                                           --
-- ######################################################################## --

theorem dictGet?_dictSet_self (d : List (PyStr × α)) (k : PyStr) (v : α) :
    dictGet? (dictSet d k v) k = some v := by
  induction d with
  | nil => simp [dictSet, dictGet?]
  | cons hd tl ih =>
    obtain ⟨k', v'⟩ := hd
    by_cases h : k' = k
    · simp [dictSet, h, dictGet?]
    · simp [dictSet, h, dictGet?, ih]

theorem dictGet?_dictSet_ne (d : List (PyStr × α)) (k k' : PyStr) (v : α)
    (h : k' ≠ k) : dictGet? (dictSet d k v) k' = dictGet? d k' := by
  have hkk : ¬ k = k' := fun hh => h hh.symm
  induction d with
  | nil => simp [dictSet, dictGet?, hkk]
  | cons hd tl ih =>
    obtain ⟨k0, v0⟩ := hd
    by_cases h0 : k0 = k
    · subst h0
      simp [dictSet, dictGet?, hkk]
    · by_cases h1 : k0 = k'
      · subst h1
        simp [dictSet, h0, dictGet?]
      · simp [dictSet, h0, dictGet?, h1, ih]

theorem splitChar_shape (sep : Char) (l : List Char) :
    ∃ t ts, splitChar sep l = t :: ts := by
  induction l with
  | nil => exact ⟨[], [], rfl⟩
  | cons c cs ih =>
    obtain ⟨t, ts, h⟩ := ih
    by_cases hc : c = sep
    · exact ⟨[], splitChar sep cs, by simp [splitChar, hc]⟩
    · exact ⟨c :: t, ts, by simp [splitChar, hc, h]⟩

theorem splitChar_noSep_append (sep : Char) (a rest : List Char) (h : sep ∉ a) :
    splitChar sep (a ++ sep :: rest) = a :: splitChar sep rest := by
  induction a with
  | nil => simp [splitChar]
  | cons c cs ih =>
    have hc : ¬ c = sep := fun hh => h (hh ▸ List.mem_cons_self c cs)
    have hs : sep ∉ cs := fun hh => h (List.mem_cons_of_mem c hh)
    simp only [List.cons_append, splitChar, if_neg hc, List.append_eq]
    rw [ih hs]

theorem validStatus_no_tab (st : PyStr) (h : validStatus st) : tab ∉ st := by
  rcases h with h | h | h | h <;> subst h <;> decide

/-- Tokenization of a well-formed result record: the first three fields come
out intact and the output contributes at least one further token. -/
theorem record_line_tokens (nm cmd st fld : PyStr) (h1 : tab ∉ nm)
    (h2 : tab ∉ cmd) (h3 : tab ∉ st) :
    splitChar tab (record_line nm cmd st fld) =
      nm :: cmd :: st :: splitChar tab fld := by
  have e : record_line nm cmd st fld =
      nm ++ tab :: (cmd ++ tab :: (st ++ tab :: fld)) := by
    simp [record_line]
  rw [e, splitChar_noSep_append tab nm _ h1,
    splitChar_noSep_append tab cmd _ h2, splitChar_noSep_append tab st _ h3]

/-- Every record send_result composes for a finished subprocess is a
well-formed agent record. -/
theorem compose_result_produced (nm cmd : PyStr) (rc : Int) (out errs : PyStr)
    (h1 : tab ∉ nm) (h2 : tab ∉ cmd) :
    AgentProduced (compose_result nm cmd rc out errs) := by
  refine ⟨nm, cmd, send_status rc errs,
    (if rc > 0 ∨ errs ≠ [] then errs else out), h1, h2, ?_, rfl⟩
  unfold send_status
  by_cases h : rc > 0 ∨ errs ≠ []
  · simp [h, validStatus]
  · simp [h, validStatus]

/-- Every record stop_and_kill_subproc leaves behind (reason TIMEOUT·TAB,
KILLED·TAB, or ERROR·TAB·message, as passed by its three callers) is a
well-formed agent record. -/
theorem stop_result_produced (nm cmd extra : PyStr) (st : PyStr)
    (h1 : tab ∉ nm) (h2 : tab ∉ cmd) (h3 : validStatus st) :
    AgentProduced (stop_result nm cmd (st ++ tab :: extra)) := by
  refine ⟨nm, cmd, st, extra, h1, h2, h3, ?_⟩
  simp [stop_result, record_line]

-- ######################################################################## --
-- Claim theorems.                                                          --
-- ######################################################################## --

/-- C1: the claim says a test with N targets, minHosts = K and M failing
targets completes iff N - M >= K.  The code initializes timeoutsRemaining to
minHosts itself (not to N - K) and aborts only at the (K+1)-th failure, so
the threshold never depends on N.  Evaluated at the failing input N = 1,
K = 1, M = 1: the single target of a test that requires at least one live
host fails, yet the test is left completed (testAborted = false), while
N - M = 0 < K demands an abort; the code aborts only once a second failure
(M = 2) arrives. -/
theorem c1_minhosts_code_bug :
    (apply_failures 1 1 (init_abort_state 1)).testAborted = false
    ∧ ¬ ((1 : Int) - 1 ≥ 1)
    ∧ (apply_failures 1 2 (init_abort_state 1)).testAborted = true := by
  decide

/-- C7: the claim says an oversized result record is truncated to fit
4096 bytes and then sent, never faulting.  In the code the truncation branch
reads the undefined name `resultString` (NetJobsAgent.py line 329), so
composing a record longer than BUFFER_SIZE raises NameError and the record
is never sent.  Evaluated at a SUCCESS record whose stdout is 5000
characters. -/
theorem c7_truncation_code_bug :
    (compose_result [] [] 0 (List.replicate 5000 'x') []).length > BUFFER_SIZE
    ∧ send_result [] [] none 0 (List.replicate 5000 'x') [] =
        Except.error PyErr.nameError := by
  have hcond : ¬ ((0 : Int) > 0 ∨ ([] : PyStr) ≠ []) := by decide
  have hS : SUCCESS_STATUS.length = 7 := by decide
  have h1 : compose_result [] [] 0 (List.replicate 5000 'x') [] =
      record_line [] [] SUCCESS_STATUS (List.replicate 5000 'x') := by
    unfold compose_result send_status
    rw [if_neg hcond, if_neg hcond]
  have h2 : (record_line [] [] SUCCESS_STATUS (List.replicate 5000 'x')).length
      = 5010 := by
    simp only [record_line, List.length_append, List.length_replicate, hS,
      List.length_nil, List.length_cons]
  have hgt : (compose_result [] [] 0 (List.replicate 5000 'x') []).length >
      BUFFER_SIZE := by
    rw [h1, h2]
    norm_num [BUFFER_SIZE]
  refine ⟨hgt, ?_⟩
  show (if (compose_result [] [] 0 (List.replicate 5000 'x') []).length >
      BUFFER_SIZE then Except.error PyErr.nameError
    else Except.ok (compose_result [] [] 0 (List.replicate 5000 'x') []))
      = Except.error PyErr.nameError
  rw [if_pos hgt]

/-- C8: the claim says that a received record with fewer than four
TAB-separated fields is padded with empty strings without faulting.  In the
code the padding loop assigns tokens[4-count] (an out-of-range index when
count is 1 or 2) and the subsequent read of tokens[3] is out of range when
count is 3, so every short record raises IndexError (which the listener's
bare except then routes into handle_timeout).  Evaluated on buffers with
three, two and one fields against a results dict holding target "a". -/
theorem c8_padding_code_bug :
    process_result_string [(pyStr "a", [(pyStr "b", none)])] (pyStr "a\tb\tc")
        = Except.error PyErr.indexError
    ∧ process_result_string [(pyStr "a", [(pyStr "b", none)])] (pyStr "a\tb")
        = Except.error PyErr.indexError
    ∧ process_result_string [(pyStr "a", [(pyStr "b", none)])] (pyStr "a")
        = Except.error PyErr.indexError := by
  decide

/-- C3 counterexample: the claim says status is SUCCESS iff the exit code is
0 and stderr is empty.  The code tests `returncode > 0`, so a subprocess
whose shell is killed by a signal (Python reports returncode -9) with empty
stderr yields a SUCCESS record even though its exit code is not 0. -/
theorem c3_counterexample :
    send_status (-9) [] = SUCCESS_STATUS
    ∧ splitChar tab (compose_result (pyStr "t1") (pyStr "c") (-9) (pyStr "o") [])
        = [pyStr "t1", pyStr "c", SUCCESS_STATUS, pyStr "o"]
    ∧ ¬ ((-9 : Int) = 0) := by
  decide

/-- C3 amended: for a subprocess that runs to completion, the status is
SUCCESS iff the exit code is at most 0 (the code tests returncode > 0, so
negative exit codes count as success) and stderr is empty; in every other
case the status is ERROR and the record carries stderr as its output
field. -/
theorem c3_amended (rc : Int) (errs out nm cmd : PyStr) :
    (send_status rc errs = SUCCESS_STATUS ↔ (rc ≤ 0 ∧ errs = []))
    ∧ (send_status rc errs = ERROR_STATUS ↔ (0 < rc ∨ errs ≠ []))
    ∧ ((0 < rc ∨ errs ≠ []) →
        compose_result nm cmd rc out errs =
          record_line nm cmd ERROR_STATUS errs) := by
  have hne : SUCCESS_STATUS ≠ ERROR_STATUS := by decide
  by_cases h : rc > 0 ∨ errs ≠ []
  · refine ⟨?_, ?_, ?_⟩
    · simp only [send_status, if_pos h]
      constructor
      · intro hh
        exact absurd hh.symm hne
      · rintro ⟨h1, h2⟩
        rcases h with h | h
        · omega
        · exact absurd h2 h
    · simp only [send_status, if_pos h]
      exact ⟨fun _ => h, fun _ => trivial⟩
    · intro _
      simp only [compose_result, send_status, if_pos h]
  · refine ⟨?_, ?_, ?_⟩
    · simp only [send_status, if_neg h]
      push_neg at h
      exact ⟨fun _ => ⟨by omega, h.2⟩, fun _ => trivial⟩
    · simp only [send_status, if_neg h]
      exact ⟨fun hh => absurd hh.symm (Ne.symm hne), fun hh => absurd hh h⟩
    · intro hh
      exact absurd hh h

/-- Witness for c3_amended at rc = 2, errs = "oops": the record is an ERROR
record carrying stderr. -/
theorem c3_amended_witness :
    compose_result (pyStr "t1") (pyStr "c") 2 (pyStr "o") (pyStr "oops") =
      record_line (pyStr "t1") (pyStr "c") ERROR_STATUS (pyStr "oops") :=
  (c3_amended 2 (pyStr "oops") (pyStr "o") (pyStr "t1") (pyStr "c")).2.2
    (by decide)

/-- C4 counterexample: the claim says every prepare-phase per-agent failure,
a connection failure or a mismatched echo included, is handled by the
handle_timeout abort policy.  In the code every echo-mismatch branch and
every socket.error branch calls sys.exit, killing the whole coordinator;
only socket.timeout reaches handle_timeout.  Concretely, a mismatched echo
of the very first (name) message of a one-job target is a fatal exit, not a
handled timeout. -/
theorem c4_counterexample :
    prep_one_target (NetEvent.ok []) (prep_msgs (pyStr "t1") [(pyStr "c1", 5)])
        [NetEvent.ok (pyStr "bogus")] = PrepOutcome.fatal_exit
    ∧ PrepOutcome.fatal_exit ≠ PrepOutcome.handled_timeout := by
  decide

/-- C4 amended: during the prepare phase only a socket timeout (on connect
or on any echo read) is routed to handle_timeout; a mismatched echo of any
configure message, and any socket error, terminate the whole coordinator
process via sys.exit. -/
theorem c4_amended :
    (∀ ms es, prep_one_target NetEvent.evTimeout ms es =
        PrepOutcome.handled_timeout)
    ∧ (∀ ms es, prep_one_target NetEvent.evError ms es =
        PrepOutcome.fatal_exit)
    ∧ (∀ r ms es, prep_one_target (NetEvent.ok r) ms es = prep_echoes ms es)
    ∧ (∀ m ms resp es, resp ≠ m →
        prep_echoes (m :: ms) (NetEvent.ok resp :: es) =
          PrepOutcome.fatal_exit)
    ∧ (∀ m ms resp es, resp = m →
        prep_echoes (m :: ms) (NetEvent.ok resp :: es) = prep_echoes ms es)
    ∧ (∀ m ms es, prep_echoes (m :: ms) (NetEvent.evTimeout :: es) =
        PrepOutcome.handled_timeout)
    ∧ (∀ m ms es, prep_echoes (m :: ms) (NetEvent.evError :: es) =
        PrepOutcome.fatal_exit) := by
  refine ⟨fun ms es => rfl, fun ms es => rfl, fun r ms es => rfl,
    ?_, ?_, fun m ms es => rfl, fun m ms es => rfl⟩
  · intro m ms resp es h
    simp [prep_echoes, h]
  · intro m ms resp es h
    simp [prep_echoes, h]

/-- Witness for c4_amended: a mismatched echo of the name message is a
fatal exit. -/
theorem c4_amended_witness :
    prep_echoes [pyStr "a"] [NetEvent.ok (pyStr "b")] =
      PrepOutcome.fatal_exit :=
  c4_amended.2.2.2.1 (pyStr "a") [] (pyStr "b") [] (by decide)

/-- C5 counterexample: the claim says that on an unrecognized configure key
the agent closes the connection without ever sending DONE.  In the code the
unknown key only breaks the get_specs loop; ready stays False, main skips
the wait-for-start loop, joins the (empty) subthread list, and then
unconditionally attempts to send DONE before closing.  So the session for
the single configure message `foo TAB bar` never starts a run but does send
DONE. -/
theorem c5_counterexample :
    (agent_session [pyStr "foo\tbar\n"] []).sentDone = true
    ∧ (agent_session [pyStr "foo\tbar\n"] []).started = false
    ∧ (get_specs init_agent_state [pyStr "foo\tbar\n"]).ready = false := by
  decide

/-- C5 amended: an unrecognized key during configuration makes the agent
stop reading specs immediately (the state is returned unchanged) and the
run never starts — no subprocess is spawned and no result record is sent —
but before closing the connection the agent still sends the DONE token. -/
theorem c5_amended (st : AgentState) (m : PyStr) (ms postMsgs : List PyStr)
    (hready : m ≠ READY_STRING)
    (hlen : 2 ≤ (splitChar tab (m.filter (fun c => c ≠ nl))).length)
    (hkey : (splitChar tab (m.filter (fun c => c ≠ nl))).getD 0 [] ∉
      [pyStr "name", pyStr "command", pyStr "timeout"]) :
    get_specs st (m :: ms) = st
    ∧ (agent_session (m :: ms) postMsgs).started = false
    ∧ (agent_session (m :: ms) postMsgs).sentDone = true := by
  simp only [List.mem_cons, List.mem_singleton, not_or] at hkey
  obtain ⟨hk1, hk2, hk3, -⟩ := hkey
  have hgen : ∀ s : AgentState, get_specs s (m :: ms) = s := by
    intro s
    rw [get_specs]
    rw [if_neg hready, if_neg (by omega), if_neg hk1, if_neg hk2, if_neg hk3]
  refine ⟨hgen st, ?_, rfl⟩
  show (if (get_specs init_agent_state (m :: ms)).ready then
      await_start postMsgs else false) = false
  rw [hgen init_agent_state]
  rfl

/-- Witness for c5_amended at the configure message `foo TAB bar`. -/
theorem c5_amended_witness :
    get_specs init_agent_state [pyStr "foo\tbar\n"] = init_agent_state
    ∧ (agent_session [pyStr "foo\tbar\n"] []).started = false
    ∧ (agent_session [pyStr "foo\tbar\n"] []).sentDone = true :=
  c5_amended init_agent_state (pyStr "foo\tbar\n") [] [] (by decide)
    (by decide) (by decide)

theorem if_gt_eq_max (a b : Int) : (if b > a then b else a) = max a b := by
  rcases le_or_lt b a with h | h
  · rw [if_neg (by omega), max_eq_left h]
  · rw [if_pos h, max_eq_right (le_of_lt h)]

/-- The TestConfig per-target loop on a timeout dict that holds an integer
for every command: no break fires and the listener timeout is the running
maximum of the finite values, seeded with generalTimeout. -/
theorem target_setup_all_ints (tmap : List (PyStr × Option Int)) :
    ∀ (cmds : List PyStr) (ts : List Int) (res : InnerMap) (g : Int),
      cmds.length = ts.length →
      (∀ (i : Nat) (h1 : i < cmds.length) (h2 : i < ts.length),
        dictGet? tmap (cmds.get ⟨i, h1⟩) = some (some (ts.get ⟨i, h2⟩))) →
      ∃ res2, target_setup tmap cmds res g =
        Except.ok (res2, some (ts.foldl max g)) := by
  intro cmds
  induction cmds with
  | nil =>
    intro ts res g hlen _
    have : ts = [] := List.eq_nil_of_length_eq_zero hlen.symm
    subst this
    exact ⟨res, rfl⟩
  | cons c cs ih =>
    intro ts res g hlen hget
    cases ts with
    | nil => simp at hlen
    | cons t ts' =>
      have h0 : dictGet? tmap c = some (some t) :=
        hget 0 (by simp) (by simp)
      have hlen' : cs.length = ts'.length := by
        simpa using hlen
      have hget' : ∀ (i : Nat) (h1 : i < cs.length) (h2 : i < ts'.length),
          dictGet? tmap (cs.get ⟨i, h1⟩) = some (some (ts'.get ⟨i, h2⟩)) := by
        intro i h1 h2
        exact hget (i + 1) (by simpa using Nat.succ_lt_succ h1)
          (by simpa using Nat.succ_lt_succ h2)
      obtain ⟨res2, hres⟩ := ih ts' (dictSet res c none)
        (if t > g then t else g) hlen' hget'
      refine ⟨res2, ?_⟩
      rw [if_gt_eq_max] at hres
      simp [target_setup, dictGetE, h0, hres, if_gt_eq_max, List.foldl_cons]

/-- Positional lookup in a dict built by zipping distinct command names with
integer timeout values. -/
theorem dictGet?_zip_pos :
    ∀ (cmds : List PyStr) (ts : List Int), cmds.Nodup →
      cmds.length = ts.length →
      ∀ (i : Nat) (h1 : i < cmds.length) (h2 : i < ts.length),
        dictGet? (cmds.zip (ts.map some)) (cmds.get ⟨i, h1⟩) =
          some (some (ts.get ⟨i, h2⟩))
  | [], _, _, _, i, h1, _ => absurd h1 (by simp)
  | c :: cs, [], _, hlen, _, _, _ => by simp at hlen
  | c :: cs, t :: ts', hnd, hlen, 0, h1, h2 => by
    simp [List.zip, List.zipWith, dictGet?]
  | c :: cs, t :: ts', hnd, hlen, i + 1, h1, h2 => by
    have hi : i < cs.length := by simpa using h1
    have hne : ¬ c = cs.get ⟨i, hi⟩ := by
      intro hh
      exact (List.nodup_cons.mp hnd).1 (hh ▸ List.get_mem cs i hi)
    simp only [List.zip, List.zipWith, List.map, List.get, dictGet?, if_neg hne]
    exact dictGet?_zip_pos cs ts' (List.nodup_cons.mp hnd).2
      (by simpa using hlen) i hi (by simpa using h2)

/-- The sosTimeout accumulated by get_specs's timeout branch over a list of
nonnegative wire values is their maximum together with 0, so a 0 (NONE)
entry never absorbs: it is the floor. -/
theorem register_timeout_sos (st : AgentState) (t : Int)
    (h0 : 0 ≤ st.sosTimeout) : (register_timeout st t).sosTimeout = max st.sosTimeout t := by
  unfold register_timeout
  by_cases hz : t = 0
  · subst hz
    simp [max_eq_left h0]
  · simp [hz, if_gt_eq_max]

theorem register_timeout_fold :
    ∀ (ts : List Int) (st : AgentState), 0 ≤ st.sosTimeout →
      (∀ t ∈ ts, 0 ≤ t) →
      (List.foldl register_timeout st ts).sosTimeout =
        List.foldl max st.sosTimeout ts
  | [], st, _, _ => rfl
  | t :: ts', st, h0, hts => by
    have hts' : ∀ u ∈ ts', 0 ≤ u := fun u hu => hts u (List.mem_cons_of_mem t hu)
    have hsos : (register_timeout st t).sosTimeout = max st.sosTimeout t :=
      register_timeout_sos st t h0
    have h0' : 0 ≤ (register_timeout st t).sosTimeout := by
      rw [hsos]
      exact le_max_of_le_left h0
    simp only [List.foldl_cons]
    rw [register_timeout_fold ts' (register_timeout st t) h0' hts', hsos]

/-- C6 counterexample: the claim says that a NONE job timeout absorbs: any
NONE among a target's timeouts makes both listenerTimeout and sosTimeout
NONE.  The parser stores NONE as the integer 0, so the Python-None check in
TestConfig never fires and get_specs skips 0 when maximizing: a target with
timeouts NONE (0) and 5 gets listenerTimeout 5 and sosTimeout 5, neither
Python None nor the 0 sentinel. -/
theorem c6_counterexample :
    target_setup [(pyStr "c1", some 0), (pyStr "c2", some 5)]
        [pyStr "c1", pyStr "c2"] [] 0
      = Except.ok ([(pyStr "c1", none), (pyStr "c2", none)], some 5)
    ∧ (some (5 : Int) ≠ (none : Option Int))
    ∧ ((5 : Int) ≠ TIMEOUT_NONE)
    ∧ (List.foldl register_timeout init_agent_state [0, 5]).sosTimeout = 5 := by
  decide

/-- C6 amended: for a target whose job timeouts are the integer values the
parser produces (0 = NONE), the coordinator's listenerTimeout is the
maximum of generalTimeout and all the per-command values, and the agent's
sosTimeout is the maximum of 0 and the registered wire values; a NONE (0)
timeout never absorbs — it is the minimum — so the computed value means "no
deadline" only when generalTimeout and every job timeout are NONE. -/
theorem c6_amended (g : Int) (cmds : List PyStr) (ts : List Int)
    (hlen : cmds.length = ts.length) (hnd : cmds.Nodup)
    (ts2 : List Int) (hts2 : ∀ t ∈ ts2, 0 ≤ t) :
    (∃ res, target_setup (cmds.zip (ts.map some)) cmds [] g =
        Except.ok (res, some (ts.foldl max g)))
    ∧ (List.foldl register_timeout init_agent_state ts2).sosTimeout =
        List.foldl max 0 ts2 := by
  constructor
  · exact target_setup_all_ints (cmds.zip (ts.map some)) cmds ts [] g hlen
      (dictGet?_zip_pos cmds ts hnd hlen)
  · exact register_timeout_fold ts2 init_agent_state (by decide) hts2

/-- Witness for c6_amended at one command with timeout 3 and agent wire
values [2]. -/
theorem c6_amended_witness :
    (∃ res, target_setup ([pyStr "a"].zip ([3].map some)) [pyStr "a"] [] 0 =
        Except.ok (res, some (List.foldl max 0 [3])))
    ∧ (List.foldl register_timeout init_agent_state [2]).sosTimeout =
        List.foldl max 0 [2] :=
  c6_amended 0 [pyStr "a"] [3] (by decide) (by decide) [2] (by decide)

theorem start_run_map_fst : ∀ (cs : List PyStr) (ts : List (Option Int)),
    (start_run cs ts).map Prod.fst = cs.take ts.length
  | [], ts => by cases ts <;> simp [start_run]
  | c :: cs, [] => by simp [start_run]
  | c :: cs, t :: ts => by simp [start_run, start_run_map_fst cs ts]

theorem get_mem_drop {α : Type} : ∀ (cs : List α) (n i : Nat), n ≤ i →
    ∀ hi : i < cs.length, cs.get ⟨i, hi⟩ ∈ cs.drop n
  | cs, 0, i, _, hi => List.get_mem cs i hi
  | [], _ + 1, _, _, hi => absurd hi (by simp)
  | _ :: _, _ + 1, 0, hn, _ => absurd hn (by omega)
  | c :: cs, n + 1, i + 1, hn, hi => by
    have h := get_mem_drop cs n i (Nat.le_of_succ_le_succ hn)
      (by simpa using hi)
    simpa using h

/-- C9: start_run spawns one ProcThread per index below
min(len(commands), len(timeouts)), pairing commands[i] with timeouts[i];
the commands that get result records are exactly the first
min(len(commands), len(timeouts)) ones, and a surplus command (index at or
beyond len(timeouts)) is never spawned and never produces a record. -/
theorem c9_spawn_min (cs : List PyStr) (ts : List (Option Int)) :
    (start_run cs ts).length = min cs.length ts.length
    ∧ (∀ (i : Nat) (h : i < (start_run cs ts).length) (hc : i < cs.length)
        (ht : i < ts.length),
        (start_run cs ts).get ⟨i, h⟩ = (cs.get ⟨i, hc⟩, ts.get ⟨i, ht⟩))
    ∧ run_record_commands cs ts = cs.take ts.length
    ∧ (cs.Nodup → ∀ (i : Nat), ts.length ≤ i → ∀ (hi : i < cs.length),
        cs.get ⟨i, hi⟩ ∉ run_record_commands cs ts) := by
  have hlen : ∀ (cs : List PyStr) (ts : List (Option Int)),
      (start_run cs ts).length = min cs.length ts.length := by
    intro cs
    induction cs with
    | nil => intro ts; cases ts <;> simp [start_run]
    | cons c cs ih =>
      intro ts
      cases ts with
      | nil => simp [start_run]
      | cons t ts =>
        simp only [start_run, List.length_cons, ih ts]
        omega
  have hget : ∀ (cs : List PyStr) (ts : List (Option Int)) (i : Nat)
      (h : i < (start_run cs ts).length) (hc : i < cs.length)
      (ht : i < ts.length),
      (start_run cs ts).get ⟨i, h⟩ = (cs.get ⟨i, hc⟩, ts.get ⟨i, ht⟩) := by
    intro cs
    induction cs with
    | nil => intro ts i h; simp [start_run] at h
    | cons c cs ih =>
      intro ts i h hc ht
      cases ts with
      | nil => simp [start_run] at h
      | cons t ts =>
        cases i with
        | zero => rfl
        | succ j =>
          have h' : j < (start_run cs ts).length := by
            simpa [start_run] using h
          exact ih ts j h' (by simpa using hc) (by simpa using ht)
  refine ⟨hlen cs ts, hget cs ts, start_run_map_fst cs ts, ?_⟩
  intro hnd i hts hi hmem
  rw [run_record_commands, start_run_map_fst cs ts] at hmem
  exact List.disjoint_take_drop hnd (le_refl ts.length) hmem
    (get_mem_drop cs ts.length i hts hi)

/-- Witness for c9_spawn_min: with two commands and one timeout, the surplus
second command gets no record. -/
theorem c9_spawn_min_witness :
    pyStr "b" ∉ run_record_commands [pyStr "a", pyStr "b"] [some 1] := by
  have h := (c9_spawn_min [pyStr "a", pyStr "b"] [some 1]).2.2.2
    (by decide) 1 (by decide) (by decide)
  exact h

/-- Step characterization of process_result_string on a buffer with at least
four TAB-separated fields: no padding runs, and the store happens under the
record's own first two fields. -/
theorem process_result_string_four (R : ResultsMap) (m : PyStr)
    (t0 t1 t2 t3 : PyStr) (rest : List PyStr)
    (hsplit : splitChar tab m = t0 :: t1 :: t2 :: t3 :: rest) :
    process_result_string R m =
      match dictGet? R t0 with
      | none => Except.error PyErr.keyError
      | some inner =>
        Except.ok (dictSet R t0 (dictSet inner t1 (some (t2, t3)))) := by
  unfold process_result_string
  rw [hsplit]
  have hc : ¬ ((t0 :: t1 :: t2 :: t3 :: rest).length < 4) := by
    simp only [List.length_cons]
    omega
  rw [if_neg hc]
  cases hR : dictGet? R t0 with
  | none =>
    simp [listGetE, List.get?, dictGetE, hR, Except.map, Except.bind, bind,
      Functor.map, pure, Except.pure]
  | some inner =>
    simp [listGetE, List.get?, dictGetE, hR, Except.map, Except.bind, bind,
      Functor.map, pure, Except.pure]

/-- C10 counterexample: the claim says a record whose command field is not
in the target's plan makes the store raise.  Python dict assignment inserts
new keys silently: a record for known target t1 with unknown command cX is
stored without error, the listener keeps running (no handle_timeout), and
results[t1] now holds the spurious key cX. -/
theorem c10_counterexample :
    process_result_string [(pyStr "t1", [(pyStr "c1", none)])]
        (pyStr "t1\tcX\tSUCCESS\tok")
      = Except.ok [(pyStr "t1",
          [(pyStr "c1", none), (pyStr "cX", some (pyStr "SUCCESS", pyStr "ok"))])]
    ∧ listener_loop [(pyStr "t1", [(pyStr "c1", none)])]
        [pyStr "t1\tcX\tSUCCESS\tok"]
      = ([(pyStr "t1",
          [(pyStr "c1", none), (pyStr "cX", some (pyStr "SUCCESS", pyStr "ok"))])],
         false) := by
  decide

/-- C10 amended: the listener stores a received record under the record's
own first two fields.  When the record's target field is not a key of the
results map the store raises KeyError, the listener's exception path invokes
handle_timeout and the loop exits (signoff then runs, see listener_exit);
but when the target is known and only the command field is not in that
target's plan, the store succeeds and silently inserts the new command
key. -/
theorem c10_amended (R : ResultsMap) (m : PyStr) (t0 t1 t2 t3 : PyStr)
    (rest : List PyStr) (hm : m ≠ DONE_STRING)
    (hsplit : splitChar tab m = t0 :: t1 :: t2 :: t3 :: rest) :
    (dictGet? R t0 = none →
      process_result_string R m = Except.error PyErr.keyError
      ∧ ∀ ms, listener_loop R (m :: ms) = (R, true))
    ∧ (∀ inner, dictGet? R t0 = some inner →
      process_result_string R m =
        Except.ok (dictSet R t0 (dictSet inner t1 (some (t2, t3))))) := by
  have hchar := process_result_string_four R m t0 t1 t2 t3 rest hsplit
  constructor
  · intro hR
    rw [hR] at hchar
    refine ⟨hchar, ?_⟩
    intro ms
    show (if m = DONE_STRING then (R, false)
      else
        match process_result_string R m with
        | Except.ok r2 => listener_loop r2 ms
        | Except.error _ => (R, true)) = (R, true)
    rw [if_neg hm, hchar]
  · intro inner hR
    rw [hR] at hchar
    exact hchar

/-- Witness for c10_amended: a record for an unknown target raises KeyError
and stops the listener loop with handle_timeout invoked. -/
theorem c10_amended_witness :
    process_result_string [] (pyStr "x\ty\tz\tw") = Except.error PyErr.keyError
    ∧ listener_loop [] [pyStr "x\ty\tz\tw"] = ([], true) := by
  have h := (c10_amended [] (pyStr "x\ty\tz\tw") (pyStr "x") (pyStr "y")
    (pyStr "z") (pyStr "w") [] (by decide) (by decide)).1 (by decide)
  exact ⟨h.1, h.2 []⟩

theorem dictGetE_of_get? {α : Type} (d : List (PyStr × α)) (k : PyStr) (v : α)
    (h : dictGet? d k = some v) : dictGetE d k = Except.ok v := by
  rw [dictGetE, h]

theorem listener_loop_cons (R : ResultsMap) (m : PyStr) (ms : List PyStr) :
    listener_loop R (m :: ms) =
      if m = DONE_STRING then (R, false)
      else
        match process_result_string R m with
        | Except.ok r2 => listener_loop r2 ms
        | Except.error _ => (R, true) := rfl

theorem print_signoff_cons (target cmd : PyStr) (rest : List PyStr)
    (R : ResultsMap) :
    print_signoff target (cmd :: rest) R =
      match dictGetE R target with
      | Except.error e => Except.error e
      | Except.ok inner =>
        match dictGetE inner cmd with
        | Except.error e => Except.error e
        | Except.ok v =>
          match v with
          | none =>
            print_signoff target rest
              (dictSet R target (dictSet inner cmd (some (KILLED_STATUS, []))))
          | some _ => print_signoff target rest R := rfl

/-- Processing one agent-produced record preserves the listener invariant:
this target's slots stay present, and any slot holding a record holds a
valid status. -/
theorem process_preserves (target : PyStr) (specs_t : List PyStr)
    (R R2 : ResultsMap) (m : PyStr) (hm : AgentProduced m)
    (inner : InnerMap) (hin : dictGet? R target = some inner)
    (hok : InnerOk specs_t inner)
    (h : process_result_string R m = Except.ok R2) :
    ∃ inner2, dictGet? R2 target = some inner2 ∧ InnerOk specs_t inner2 := by
  obtain ⟨nm, cmd, st, fld, hnm, hcmd, hst, hmeq⟩ := hm
  obtain ⟨f0, frest, hf⟩ := splitChar_shape tab fld
  have hsplit : splitChar tab m = nm :: cmd :: st :: f0 :: frest := by
    rw [hmeq, record_line_tokens nm cmd st fld hnm hcmd
      (validStatus_no_tab st hst), hf]
  have hchar := process_result_string_four R m nm cmd st f0 frest hsplit
  cases hR : dictGet? R nm with
  | none =>
    rw [hR] at hchar
    rw [hchar] at h
    cases h
  | some innerN =>
    rw [hR] at hchar
    rw [hchar] at h
    have hR2 : R2 = dictSet R nm (dictSet innerN cmd (some (st, f0))) := by
      cases h
      rfl
    subst hR2
    by_cases hn : nm = target
    · subst hn
      have hinner : innerN = inner := by
        rw [hin] at hR
        cases hR
        rfl
      subst hinner
      refine ⟨dictSet innerN cmd (some (st, f0)),
        dictGet?_dictSet_self R nm _, ?_⟩
      intro c hc
      by_cases hcc : cmd = c
      · subst hcc
        refine ⟨some (st, f0), dictGet?_dictSet_self innerN cmd _, ?_⟩
        intro st' out' he
        cases he
        exact hst
      · obtain ⟨v, hv, hval⟩ := hok c hc
        exact ⟨v, by rw [dictGet?_dictSet_ne innerN cmd c _ (fun hh => hcc hh.symm), hv],
          hval⟩
    · refine ⟨inner, ?_, hok⟩
      rw [dictGet?_dictSet_ne R nm target _ (fun hh => hn hh.symm), hin]

/-- The listener's receive loop preserves the invariant whatever mix of
agent records and the DONE token arrives, including a mid-stream failure. -/
theorem loop_preserves (target : PyStr) (specs_t : List PyStr) :
    ∀ (msgs : List PyStr) (R : ResultsMap),
      (∀ m ∈ msgs, m = DONE_STRING ∨ AgentProduced m) →
      (∃ inner, dictGet? R target = some inner ∧ InnerOk specs_t inner) →
      ∃ inner2, dictGet? (listener_loop R msgs).1 target = some inner2 ∧
        InnerOk specs_t inner2
  | [], R, _, hInv => hInv
  | m :: ms, R, hmsgs, hInv => by
    obtain ⟨inner, hin, hok⟩ := hInv
    rw [listener_loop_cons]
    by_cases hd : m = DONE_STRING
    · rw [if_pos hd]
      exact ⟨inner, hin, hok⟩
    · rw [if_neg hd]
      have hAg : AgentProduced m := by
        rcases hmsgs m (List.mem_cons_self m ms) with h | h
        · exact absurd h hd
        · exact h
      cases hp : process_result_string R m with
      | error e => exact ⟨inner, hin, hok⟩
      | ok r2 =>
        have hmsgs' : ∀ m2 ∈ ms, m2 = DONE_STRING ∨ AgentProduced m2 :=
          fun m2 hm2 => hmsgs m2 (List.mem_cons_of_mem m hm2)
        exact loop_preserves target specs_t ms r2 hmsgs'
          (process_preserves target specs_t R r2 m hAg inner hin hok hp)

/-- print_signoff totalizes this target's slots: it succeeds, fills every
still-unset slot of the plan with (KILLED, ""), keeps every already-stored
record unchanged, and leaves every plan command holding a record with a
valid status. -/
theorem signoff_total (target : PyStr) :
    ∀ (S : List PyStr) (R : ResultsMap) (inner : InnerMap),
      dictGet? R target = some inner → InnerOk S inner →
      ∃ F innerF, print_signoff target S R = Except.ok F ∧
        dictGet? F target = some innerF ∧
        (∀ c p, dictGet? inner c = some (some p) →
          dictGet? innerF c = some (some p)) ∧
        (∀ cmd ∈ S, ∃ st out, dictGet? innerF cmd = some (some (st, out)) ∧
          validStatus st) ∧
        (∀ cmd ∈ S, dictGet? inner cmd = some none →
          dictGet? innerF cmd = some (some (KILLED_STATUS, [])))
  | [], R, inner, hin, _ =>
    ⟨R, inner, rfl, hin, fun c p h => h, fun cmd hc => absurd hc (by simp),
      fun cmd hc => absurd hc (by simp)⟩
  | cmd :: rest, R, inner, hin, hok => by
    obtain ⟨v, hv, hval⟩ := hok cmd (List.mem_cons_self cmd rest)
    have hstep : print_signoff target (cmd :: rest) R =
        (match v with
          | none => print_signoff target rest
              (dictSet R target (dictSet inner cmd (some (KILLED_STATUS, []))))
          | some _ => print_signoff target rest R) := by
      rw [print_signoff_cons, dictGetE_of_get? R target inner hin]
      show (match dictGetE inner cmd with
        | Except.error e => Except.error e
        | Except.ok v2 =>
          match v2 with
          | none => print_signoff target rest
              (dictSet R target (dictSet inner cmd (some (KILLED_STATUS, []))))
          | some _ => print_signoff target rest R) =
        (match v with
          | none => print_signoff target rest
              (dictSet R target (dictSet inner cmd (some (KILLED_STATUS, []))))
          | some _ => print_signoff target rest R)
      rw [dictGetE_of_get? inner cmd v hv]
      cases v <;> rfl
    rw [hstep]
    cases v with
    | none =>
      have hin' : dictGet? (dictSet R target
          (dictSet inner cmd (some (KILLED_STATUS, [])))) target =
          some (dictSet inner cmd (some (KILLED_STATUS, []))) :=
        dictGet?_dictSet_self R target _
      have hok' : InnerOk rest (dictSet inner cmd (some (KILLED_STATUS, []))) := by
        intro c hc
        by_cases hcc : cmd = c
        · subst hcc
          refine ⟨some (KILLED_STATUS, []), dictGet?_dictSet_self inner cmd _, ?_⟩
          intro st out he
          cases he
          exact Or.inr (Or.inr (Or.inr rfl))
        · obtain ⟨v2, hv2, hval2⟩ := hok c (List.mem_cons_of_mem cmd hc)
          exact ⟨v2, by
            rw [dictGet?_dictSet_ne inner cmd c _ (fun hh => hcc hh.symm), hv2],
            hval2⟩
      obtain ⟨F, innerF, hpf, hFin, hpres, htot, hkill⟩ :=
        signoff_total target rest _ _ hin' hok'
      refine ⟨F, innerF, hpf, hFin, ?_, ?_, ?_⟩
      · intro c p hcp
        by_cases hcc : cmd = c
        · subst hcc
          rw [hv] at hcp
          cases hcp
        · exact hpres c p (by
            rw [dictGet?_dictSet_ne inner cmd c _ (fun hh => hcc hh.symm)]
            exact hcp)
      · intro c hc
        rcases List.mem_cons.mp hc with hcc | hcc
        · subst hcc
          refine ⟨KILLED_STATUS, [], ?_, Or.inr (Or.inr (Or.inr rfl))⟩
          exact hpres c (KILLED_STATUS, []) (dictGet?_dictSet_self inner c _)
        · exact htot c hcc
      · intro c hc hnone
        by_cases hcc : cmd = c
        · subst hcc
          exact hpres cmd (KILLED_STATUS, []) (dictGet?_dictSet_self inner cmd _)
        · rcases List.mem_cons.mp hc with hcc2 | hcc2
          · exact absurd hcc2.symm hcc
          · exact hkill c hcc2 (by
              rw [dictGet?_dictSet_ne inner cmd c _ (fun hh => hcc hh.symm)]
              exact hnone)
    | some p =>
      have hokr : InnerOk rest inner :=
        fun c hc => hok c (List.mem_cons_of_mem cmd hc)
      obtain ⟨F, innerF, hpf, hFin, hpres, htot, hkill⟩ :=
        signoff_total target rest R inner hin hokr
      refine ⟨F, innerF, hpf, hFin, hpres, ?_, ?_⟩
      · intro c hc
        rcases List.mem_cons.mp hc with hcc | hcc
        · subst hcc
          refine ⟨p.1, p.2, hpres c p (by rw [hv]), hval p.1 p.2 rfl⟩
        · exact htot c hcc
      · intro c hc hnone
        by_cases hcc : cmd = c
        · subst hcc
          rw [hv] at hnone
          cases hnone
        · rcases List.mem_cons.mp hc with hcc2 | hcc2
          · exact absurd hcc2.symm hcc
          · exact hkill c hcc2 hnone

/-- C2: for every (target, command) pair of the target's plan, once the
listener exits (DONE received, stream over, timeout, kill, or a processing
error) and print_signoff has run, results[target][command] holds exactly one
(status, output) record with status among SUCCESS, ERROR, TIMEOUT, KILLED
and output a (possibly empty) string; any slot still unset at loop exit is
the synthesized (KILLED, "").  The slots start as Python None
(TestConfig.__init__) and every received buffer is either DONE or a record
the agent produced. -/
theorem c2_result_totality (target : PyStr) (specs_t : List PyStr)
    (R0 : ResultsMap) (inner0 : InnerMap) (msgs : List PyStr)
    (hinit : dictGet? R0 target = some inner0)
    (hinit2 : ∀ cmd ∈ specs_t, dictGet? inner0 cmd = some none)
    (hmsgs : ∀ m ∈ msgs, m = DONE_STRING ∨ AgentProduced m) :
    ∃ F innerF innerL,
      listener_exit target specs_t R0 msgs =
        Except.ok (F, (listener_loop R0 msgs).2)
      ∧ dictGet? F target = some innerF
      ∧ dictGet? (listener_loop R0 msgs).1 target = some innerL
      ∧ (∀ cmd ∈ specs_t, dictGet? innerL cmd = some none →
          dictGet? innerF cmd = some (some (KILLED_STATUS, [])))
      ∧ (∀ cmd ∈ specs_t, ∃ st out,
          dictGet? innerF cmd = some (some (st, out)) ∧ validStatus st) := by
  have hok0 : InnerOk specs_t inner0 := by
    intro cmd hc
    exact ⟨none, hinit2 cmd hc, fun st out h => Option.noConfusion h⟩
  obtain ⟨innerL, hL, hokL⟩ :=
    loop_preserves target specs_t msgs R0 hmsgs ⟨inner0, hinit, hok0⟩
  obtain ⟨F, innerF, hsig, hFin, hpres, htot, hkill⟩ :=
    signoff_total target specs_t (listener_loop R0 msgs).1 innerL hL hokL
  refine ⟨F, innerF, innerL, ?_, hFin, hL, hkill, htot⟩
  rw [listener_exit, hsig]

/-- Witness for c2_result_totality: a two-command plan whose agent reports
one SUCCESS record and DONE; the unreported command ends as (KILLED, ""). -/
theorem c2_result_totality_witness :
    ∃ F innerF innerL,
      listener_exit (pyStr "t1") [pyStr "c1", pyStr "c2"]
          [(pyStr "t1", [(pyStr "c1", none), (pyStr "c2", none)])]
          [compose_result (pyStr "t1") (pyStr "c1") 0 (pyStr "hi") [],
            DONE_STRING] =
        Except.ok (F, (listener_loop
          [(pyStr "t1", [(pyStr "c1", none), (pyStr "c2", none)])]
          [compose_result (pyStr "t1") (pyStr "c1") 0 (pyStr "hi") [],
            DONE_STRING]).2)
      ∧ dictGet? F (pyStr "t1") = some innerF
      ∧ dictGet? (listener_loop
          [(pyStr "t1", [(pyStr "c1", none), (pyStr "c2", none)])]
          [compose_result (pyStr "t1") (pyStr "c1") 0 (pyStr "hi") [],
            DONE_STRING]).1 (pyStr "t1") = some innerL
      ∧ (∀ cmd ∈ [pyStr "c1", pyStr "c2"], dictGet? innerL cmd = some none →
          dictGet? innerF cmd = some (some (KILLED_STATUS, [])))
      ∧ (∀ cmd ∈ [pyStr "c1", pyStr "c2"], ∃ st out,
          dictGet? innerF cmd = some (some (st, out)) ∧ validStatus st) :=
  c2_result_totality (pyStr "t1") [pyStr "c1", pyStr "c2"]
    [(pyStr "t1", [(pyStr "c1", none), (pyStr "c2", none)])]
    [(pyStr "c1", none), (pyStr "c2", none)]
    [compose_result (pyStr "t1") (pyStr "c1") 0 (pyStr "hi") [], DONE_STRING]
    (by decide) (by decide)
    (by
      intro m hm
      rcases List.mem_cons.mp hm with h | h
      · exact Or.inr (h ▸ compose_result_produced (pyStr "t1") (pyStr "c1") 0
          (pyStr "hi") [] (by decide) (by decide))
      · rcases List.mem_cons.mp h with h2 | h2
        · exact Or.inl h2
        · exact absurd h2 (by simp))

end NetJobsModel
